import Mathlib

/-!
Verification of the styled-text buffer and navigation model of the `ter`
e-book reader (`src/book.rs`, `src/config.rs`).

Rust code is shallowly embedded: `Vec<char>` becomes `List Char`, `usize`
becomes `Nat` (no subtraction/indexing in the embedded code underflows on
the paths we prove; where the source would panic the embedding returns
`none` and we prove exactly when that happens), fallible code returns
`Except`/`Option`.  Definitions keep the source names.
-/

namespace Ter

/-- Modelled from the spec: the `StyleKind` variants of `crate::html_parser`
(the `html_parser` module is not part of the sources under verification;
the spec lists the variants: font-scale, font-weight, font-family, colors,
link, image, border, decoration, title).  The claims never inspect style
payloads, only whether styles take part in line equality. -/
inductive TextStyle where
  | fontSize (scale : Nat) (relative : Bool)
  | fontWeight (w : Nat)
  | fontFamily (f : Nat)
  | color (c : Nat)
  | backgroundColor (c : Nat)
  | link (target : String)
  | image (href : String)
  | border
  | decoration
  | title (t : String)
deriving DecidableEq

/-- `struct Line { chars: Vec<char>, styles: Vec<(TextStyle, Range<usize>)> }`
(`src/book.rs` lines 184-187).  A style range `(s, e)` is half-open. -/
structure Line where
  chars : List Char
  styles : List (TextStyle × Nat × Nat)
deriving DecidableEq

/-- `Line::with_chars` (`src/book.rs` line 222). -/
def Line.with_chars (chars : List Char) : Line :=
  { chars := chars, styles := [] }

/-- `Line::new` (`src/book.rs` lines 228-235): pushes every scalar value of
the input string directly onto the char vector, with no filtering.
The Rust `&str` argument is modelled as its list of scalar values. -/
def Line.new (str : List Char) : Line :=
  Line.with_chars (str.foldl (fun chars ch => chars ++ [ch]) [])

/-- `Line::push` (`src/book.rs` lines 266-273): a NUL character is silently
discarded, every other character is appended. -/
def Line.push (l : Line) (ch : Char) : Line :=
  if ch = '\x00' then l
  else { l with chars := l.chars ++ [ch] }

/-- `Line::len` (`src/book.rs` line 276). -/
def Line.len (l : Line) : Nat :=
  l.chars.length

/-- `Line::char_at` (`src/book.rs` lines 300-306). -/
def Line.char_at (l : Line) (index : Nat) : Option Char :=
  l.chars.get? index

/-- The character-comparison loop of `impl PartialEq for Line`
(`src/book.rs` lines 520-531): walk two iterators in lock step, returning
`false` at the first mismatch.  When the first iterator is exhausted the
loop breaks with `true`; the source would panic (`unwrap` of `None`) if the
second iterator ran out first, which cannot happen at its single call site
because both iterators there run over the same vector. -/
def eqChars : List Char → List Char → Bool
  | c1 :: t1, c2 :: t2 => if c1 ≠ c2 then false else eqChars t1 t2
  | _, _ => true

/-- `impl PartialEq for Line::eq` (`src/book.rs` lines 513-534), translated
faithfully: lengths are compared, then BOTH iterators are created from
`self.chars` (`let mut iter1 = self.chars.iter(); let mut iter2 =
self.chars.iter();` — the source never reads `other.chars` after the
length check). -/
def Line.eq (self other : Line) : Bool :=
  if self.len ≠ other.len then false
  else eqChars self.chars self.chars

/-- `TEXT_SELECTION_SPLITTER` (`src/book.rs` lines 42-135), copied entry by
entry in source order.  The source comment claims: "this array is sorted,
modify carefully". -/
def TEXT_SELECTION_SPLITTER : Array Char := #[
  ' ',
  '#',
  '%',
  '&',
  '(',
  ')',
  '+',
  ',',
  '-',
  '.',
  '/',
  ';',
  '<',
  '=',
  '>',
  '?',
  '@',
  '[',
  '\\',
  '\t',
  ']',
  '_',
  '{',
  '}',
  '~',
  '—',
  '‘',
  '’',
  '“',
  '”',
  '…',
  '─',
  'ⸯ',
  '　',
  '、',
  '。',
  '〈',
  '〉',
  '《',
  '》',
  '「',
  '」',
  '『',
  '』',
  '【',
  '】',
  '〔',
  '〕',
  '〖',
  '〗',
  '︗',
  '︘',
  '︙',
  '︱',
  '︵',
  '︶',
  '︷',
  '︸',
  '︹',
  '︺',
  '︻',
  '︼',
  '︽',
  '︾',
  '︿',
  '﹀',
  '﹁',
  '﹂',
  '﹃',
  '﹄',
  '！',
  '＃',
  '％',
  '＆',
  '（',
  '）',
  '＊',
  '＋',
  '，',
  '－',
  '／',
  '：',
  '；',
  '＝',
  '？',
  '［',
  '］',
  '｀',
  '｛',
  '｜',
  '｝',
  '～'
]

/-- The loop of Rust `core::slice::binary_search_by` (branchless version
used by `std` since Rust 1.52, reproduced exactly): while more than one
element remains, probe `base + size / 2`; keep `base` when the probed
element is greater than the target, move `base` to the probe otherwise
(there is no early exit on equality). -/
def binarySearchLoop (arr : Array Char) (target : Char) : Nat → Nat → Nat → Nat
  | 0, base, _ => base
  | fuel + 1, base, size =>
    if 1 < size then
      let half := size / 2
      let mid := base + half
      let base' := if target < arr.getD mid default then base else mid
      binarySearchLoop arr target fuel base' (size - half)
    else base

/-- Rust `<[char]>::binary_search` (`core::slice`): returns `some index`
for `Ok(index)` and `none` for `Err(_)` (the insertion point is unused by
the source, which only calls `.is_ok()`).  The loop is run with fuel
`arr.size`, which can never be exhausted because `size` shrinks by at least
one (namely `size / 2 ≥ 1`) on every iteration starting from `arr.size`. -/
def binary_search (arr : Array Char) (target : Char) : Option Nat :=
  if arr.size = 0 then none
  else
    let base := binarySearchLoop arr target arr.size 0 arr.size
    if arr.getD base default = target then some base else none

/-- `TEXT_SELECTION_SPLITTER.binary_search(ch).is_ok()` as used by
`Line::word_at_offset`. -/
def isSplitter (ch : Char) : Bool :=
  (binary_search TEXT_SELECTION_SPLITTER ch).isSome

/-- The backward scan of `Line::word_at_offset` (`src/book.rs` lines
479-485): `for idx in (0..offset).rev() { if splitter(chars[idx]) break;
from = idx; }`, with `idxPlus1` the count of indices still to visit. -/
def wordFromLoop (chars : List Char) : Nat → Nat → Nat
  | 0, from_ => from_
  | i + 1, from_ => if isSplitter (chars.getD i default) then from_ else wordFromLoop chars i i

/-- The forward scan of `Line::word_at_offset` (`src/book.rs` lines
487-493): `while let Some(ch) = chars.get(to + 1) { if splitter(ch) break;
to += 1; }`. -/
def wordToLoop (to_ : Nat) : List Char → Nat
  | [] => to_
  | ch :: rest => if isSplitter ch then to_ else wordToLoop (to_ + 1) rest

/-- `Line::word_at_offset` (`src/book.rs` lines 471-495).  The forward scan
is run on `chars.drop (offset + 1)`: `chars.get(to + 1)` yields exactly the
head of that suffix, and each `to += 1` drops one more element. -/
def Line.word_at_offset (l : Line) (offset : Nat) : Option (Nat × Nat) :=
  match l.chars.get? offset with
  | none => none
  | some pointer_char =>
    if isSplitter pointer_char then some (offset, offset)
    else some (wordFromLoop l.chars offset offset, wordToLoop offset (l.chars.drop (offset + 1)))

instance : Inhabited Line := ⟨Line.with_chars []⟩

/-- Modelled from the spec: `crate::common::Position` (the `common` module
is not part of the sources under verification), "two arbitrary (line,
character-offset) endpoints" of a selection; `ReadingInfo::pos` builds one
as `Position::new(self.line, self.position)`. -/
structure Position where
  line : Nat
  offset : Nat

/-- Modelled from the spec: `crate::controller::HighlightInfo` with
`HighlightMode::Selection` (the `controller` module is not part of the
sources under verification).  The spec's `HighlightRange`: "starting
line/offset, ending offset on the line terminating the selection, the
concatenated plain-text content, and an indicator of how far (which line)
the highlight spans".  The source field `end` is named `stop` here
(`end` is a Lean keyword). -/
structure HighlightInfo where
  line : Nat
  start : Nat
  stop : Nat
  text : List Char
  line_to : Nat
deriving DecidableEq

/-- `usize::MAX`, used by `range_highlight` as the "to end of document"
sentinel offset. -/
def USIZE_MAX : Nat := 2 ^ 64 - 1

/-- The local helper `push_chars` of `Book::range_highlight`
(`src/book.rs` lines 628-637): when the accumulated text is non-empty a
single `'\n'` separator is pushed first, then the characters of
`range start..stop`.  The source's `char_at(offset).unwrap()` cannot panic
at the call sites because every range end is at most the line's length;
`drop`/`take` reproduce the same character slice. -/
def push_chars (line : Line) (start stop : Nat) (text : List Char) : List Char :=
  (if text.isEmpty then text else text ++ ['\n']) ++ ((line.chars.drop start).take (stop - start))

/-- `Book::range_highlight` (`src/book.rs` lines 625-682), the trait's
default implementation, as a function of `self.lines()`.  The
`for line in line1..line_to` loop is a fold over `List.range'` carrying
`(selected_text, offset_from)`. -/
def range_highlight (lines : List Line) (from_ to_ : Position) : Option HighlightInfo :=
  let q : Nat × Nat × Nat × Nat :=
    if from_.line > to_.line then (to_.line, to_.offset, from_.line, from_.offset + 1)
    else if from_.line = to_.line then
      if from_.offset ≥ to_.offset then (to_.line, to_.offset, from_.line, from_.offset + 1)
      else (from_.line, from_.offset, to_.line, to_.offset + 1)
    else (from_.line, from_.offset, to_.line, to_.offset + 1)
  let line1 := q.1
  let offset1 := q.2.1
  let line2 := q.2.2.1
  let offset2 := q.2.2.2
  let lines_count := lines.length
  if lines_count = 0 then none
  else
    let lt : Nat × Nat :=
      if line2 ≥ lines_count then (lines_count - 1, USIZE_MAX) else (line2, offset2)
    let line_to := lt.1
    let st : List Char × Nat := (List.range' line1 (line_to - line1)).foldl
      (fun st line =>
        let text := lines.getD line default
        (push_chars text st.2 text.len st.1, 0))
      ([], offset1)
    let last_text := lines.getD line_to default
    let offset_to := min last_text.len lt.2
    let selected_text := push_chars last_text st.2 offset_to st.1
    if selected_text.length = 0 then none
    else some { line := line1, start := offset1, stop := offset_to,
                text := selected_text, line_to := line_to }

/-- The state of a `Book` as seen by the trait's default navigation
methods (`src/book.rs` lines 561-590): only `chapter_count()` and
`current_chapter()` are consulted. -/
structure BookNav where
  chapter_count : Nat
  current_chapter : Nat

/-- `Book::goto_chapter` default implementation (`src/book.rs` lines
581-588): `Ok(None)` when the index is past the last chapter, otherwise
`Ok(Some(index))`; it never returns `Err`. -/
def goto_chapter (b : BookNav) (chapter_index : Nat) : Except String (Option Nat) :=
  if chapter_index ≥ b.chapter_count then .ok none
  else .ok (some chapter_index)

/-- `Book::prev_chapter` default implementation (`src/book.rs` lines
566-574): at chapter 0 it answers `Ok(None)` directly (the guard protects
the `usize` subtraction), otherwise it delegates to `goto_chapter`. -/
def prev_chapter (b : BookNav) : Except String (Option Nat) :=
  let current := b.current_chapter
  if current = 0 then .ok none
  else goto_chapter b (current - 1)

/-- `Book::next_chapter` default implementation (`src/book.rs` lines
576-579). -/
def next_chapter (b : BookNav) : Except String (Option Nat) :=
  goto_chapter b (b.current_chapter + 1)

/-- `struct ReadingInfo` (`src/config.rs` lines 16-25). -/
structure ReadingInfo where
  row_id : Int
  filename : String
  inner_book : Nat
  chapter : Nat
  line : Nat
  position : Nat
  custom_color : Bool
  strip_empty_lines : Bool
deriving DecidableEq

/-- A parsed `Box<dyn Book>` as `BookLoader::load` consumes it: only
`lines()` and `current_chapter()` are called on it. -/
structure ParsedBook where
  lines : List Line
  current_chapter : Nat
deriving DecidableEq

/-- The post-processing step of `BookLoader::load` (`src/book.rs` lines
755-763).  `none` models the panic on an empty line collection: there
`reading.line >= lines.len()` always holds, the clamp computes
`lines.len() - 1 = 0usize - 1` (a panic in debug builds, `usize::MAX` in
release builds) and the following `lines[reading.line]` index is out of
bounds, so the source panics in every build profile instead of returning
an `Err`. -/
def load_post (book : ParsedBook) (reading : ReadingInfo) : Option ReadingInfo :=
  let reading1 := { reading with chapter := book.current_chapter }
  if book.lines.length = 0 then none
  else
    let line := if reading1.line ≥ book.lines.length then book.lines.length - 1
                else reading1.line
    let chars := (book.lines.getD line default).len
    let position := if reading1.position ≥ chars then 0 else reading1.position
    some { reading1 with line := line, position := position }

/-- A registered format handler as `BookLoader::load` consults it: the
extension list behind `Loader::support` (`src/book.rs` lines 691-700) plus
its parse entry point.  The parse body is format-specific code outside
this core, so it is an abstract function from content bytes to either an
error or a `(Book, ReadingInfo)` pair. -/
structure Loader where
  extensions : List String
  load_buf : List UInt8 → Except String (ParsedBook × ReadingInfo)

/-- `Loader::support` (`src/book.rs` lines 691-700): the filename is
lowercased (`Char.toLower` per character — the registered extensions are
ASCII, where Rust's Unicode `to_lowercase` agrees) and matched against
each declared extension by suffix. -/
def Loader.support (l : Loader) (filename : String) : Bool :=
  let lower := filename.data.map Char.toLower
  l.extensions.any (fun extension => extension.data.isSuffixOf lower)

/-- `BookLoader::load` (`src/book.rs` lines 738-768): the first handler
whose `support` passes parses the content (the `File`/`Path`/`Buf` match
all reduce to handing the handler the document bytes), then the result is
post-processed by `load_post`.  The outer `Option` marks the post-
processing panic (`none`); `some (.error e)` is a returned `Err` — either
the handler's own failure or, when no handler matches, the final
"Not support open book" error. -/
def BookLoader.load (loaders : List Loader) (filename : String)
    (content : List UInt8) : Option (Except String (ParsedBook × ReadingInfo)) :=
  match loaders.find? (fun l => l.support filename) with
  | some loader =>
    match loader.load_buf content with
    | .error e => some (.error e)
    | .ok (book, reading) =>
      match load_post book reading with
      | none => none
      | some r => some (.ok (book, r))
  | none => some (.error ("Not support open book: " ++ filename))

/-- `enum SearchError` (`src/book.rs` lines 189-192): the cancellation
condition is a distinct constructor from the free-form application
failure. -/
inductive SearchError where
  | canceled
  | custom (msg : String)
deriving DecidableEq

/-- The UTF-8 byte length of a character sequence. -/
def utf8Len (s : List Char) : Nat :=
  (s.map Char.utf8Size).sum

theorem utf8Len_cons (c : Char) (t : List Char) :
    utf8Len (c :: t) = c.utf8Size + utf8Len t := by
  simp [utf8Len]

theorem utf8Len_append (a b : List Char) :
    utf8Len (a ++ b) = utf8Len a + utf8Len b := by
  simp [utf8Len]

theorem utf8Len_pos {l : List Char} (h : l ≠ []) : 0 < utf8Len l := by
  cases l with
  | nil => exact absurd rfl h
  | cons c t =>
    have := Char.utf8Size_pos c
    rw [utf8Len_cons]
    omega

theorem utf8Len_take_le (s : List Char) (n : Nat) :
    utf8Len (s.take n) ≤ utf8Len s := by
  conv_rhs => rw [← List.take_append_drop n s]
  rw [utf8Len_append]
  omega

theorem utf8Len_take_lt (s : List Char) {a b : Nat} (hab : a < b)
    (hb : b ≤ s.length) : utf8Len (s.take a) < utf8Len (s.take b) := by
  have hsplit : s.take b = s.take a ++ (s.take b).drop a := by
    conv_lhs => rw [← List.take_append_drop a (s.take b)]
    rw [List.take_take, Nat.min_eq_left (Nat.le_of_lt hab)]
  have hlen : ((s.take b).drop a).length = b - a := by
    simp [List.length_take, Nat.min_eq_left hb]
  have hne : (s.take b).drop a ≠ [] := by
    intro hnil
    rw [hnil] at hlen
    simp at hlen
    omega
  calc utf8Len (s.take a)
      < utf8Len (s.take a) + utf8Len ((s.take b).drop a) :=
        Nat.lt_add_of_pos_right (utf8Len_pos hne)
    _ = utf8Len (s.take b) := by rw [← utf8Len_append, ← hsplit]

/-- Modelled from the spec: `crate::common::char_index_for_byte` (the
`common` module is not part of the sources under verification).  The spec:
"every match must be converted from byte offset to character offset using
the line's known character count", exactly even for multi-byte scripts.
The result is the character index whose preceding characters occupy
exactly `byte_index` bytes of the UTF-8 encoding; `none` when `byte_index`
falls on no character boundary.  The `chars` argument (the line's known
character count) is a sizing hint the model does not need. -/
def char_index_for_byte (text : List Char) (_chars : Nat) (byte_index : Nat) : Option Nat :=
  (List.range (text.length + 1)).find? (fun i => utf8Len (text.take i) == byte_index)

/-- Modelled from the spec: `crate::common::byte_index_for_char` (the
`common` module is not part of the sources under verification): the byte
offset at which character `char_index` starts, `none` when the index is
not inside the line — `Line::search_pattern` relies on `none` to stop when
a match ends at the end of the text. -/
def byte_index_for_char (text : List Char) (chars : Nat) (char_index : Nat) : Option Nat :=
  if char_index < chars then some (utf8Len (text.take char_index)) else none

/-- The interface of the external `fancy_regex::Regex` engine exactly as
`src/book.rs` consumes it: `find_from_pos(line, 0)` (the first match, as a
half-open byte range into the UTF-8 encoding of the line) and `find_iter`
(every successive non-overlapping match, left to right).  Lines are
character sequences; the engine's byte view is their UTF-8 encoding.
The two `Prop` fields record facts the embedding needs for the search
loop to terminate, satisfied by any real matcher whose pattern cannot
match the empty string: a reported first match is non-empty and ends
within the text. -/
structure Regex where
  findFirst : List Char → Option (Nat × Nat)
  findIter : List Char → List (Nat × Nat)
  progress : ∀ s r, findFirst s = some r → r.1 < r.2
  bounded : ∀ s r, findFirst s = some r → r.2 ≤ utf8Len s

/-- `find_pattern` (`src/book.rs` lines 818-828): reverse search takes the
last of all matches in the text, forward search the first match; the byte
offsets of the chosen match are converted to character offsets and shifted
by the caller's starting character offset.  The source `unwrap`s the two
conversions; they cannot fail for an engine that reports match boundaries
on character boundaries, and `none` stands in for the panic otherwise. -/
def find_pattern (line : List Char) (chars : Nat) (regex : Regex)
    (start_offset : Nat) (rev : Bool) : Option (Nat × Nat) :=
  match if rev then (regex.findIter line).getLast? else regex.findFirst line with
  | none => none
  | some m =>
    match char_index_for_byte line chars m.1, char_index_for_byte line chars m.2 with
    | some match_start, some match_end =>
      some (match_start + start_offset, match_end + start_offset)
    | _, _ => none

/-- `Line::search_pattern_once` (`src/book.rs` lines 314-323): the
characters of `start..stop` are copied into a fresh string
(`(l.chars.take stop).drop start` — the source loop indexes
`self.chars[index]` and would panic for `stop > len`, which no caller
does) and handed to `find_pattern` with the slice's character count and
the start anchor. -/
def Line.search_pattern_once (l : Line) (regex : Regex)
    (start stop : Option Nat) (rev : Bool) : Option (Nat × Nat) :=
  let start := start.getD 0
  let stop := stop.getD l.len
  let line := (l.chars.take stop).drop start
  find_pattern line (stop - start) regex start rev

theorem char_index_for_byte_some_pos {text : List Char} {chars b i : Nat}
    (h : char_index_for_byte text chars b = some i) (hb : 0 < b) : 0 < i := by
  have hp := List.find?_some h
  have heq : utf8Len (text.take i) = b := by simpa using hp
  rcases Nat.eq_zero_or_pos i with hi | hi
  · subst hi
    simp [utf8Len] at heq
    omega
  · exact hi

/-- A successful forward `find_pattern` over the suffix starting at
character `start` yields a range ending strictly after `start`, and can
only happen while `start` is inside the text: the justification for the
`Line::search_pattern` loop making progress. -/
theorem find_pattern_progress {regex : Regex} {text : List Char}
    {chars start : Nat} {r : Nat × Nat}
    (h : find_pattern (text.drop start) chars regex start false = some r) :
    start < r.2 ∧ start < text.length := by
  unfold find_pattern at h
  cases hm : regex.findFirst (text.drop start) with
  | none => rw [hm] at h; simp at h
  | some m =>
    rw [hm] at h
    simp only [Bool.false_eq_true, if_false] at h
    have hprog := regex.progress _ _ hm
    have hbound := regex.bounded _ _ hm
    cases h1 : char_index_for_byte (text.drop start) chars m.1 with
    | none => rw [h1] at h; simp at h
    | some i1 =>
      cases h2 : char_index_for_byte (text.drop start) chars m.2 with
      | none => rw [h1, h2] at h; simp at h
      | some i2 =>
        rw [h1, h2] at h
        simp only [Option.some.injEq] at h
        have hr2 : r.2 = i2 + start := by rw [← h]
        have hm2pos : 0 < m.2 := Nat.lt_of_le_of_lt (Nat.zero_le _) hprog
        have hi2 : 0 < i2 := char_index_for_byte_some_pos h2 hm2pos
        constructor
        · omega
        · have hlen : 0 < utf8Len (text.drop start) :=
            Nat.lt_of_lt_of_le hm2pos hbound
          by_contra hge
          push_neg at hge
          have : text.drop start = [] := List.drop_eq_nil_iff.mpr hge
          rw [this] at hlen
          simp [utf8Len] at hlen

/-- The `while let` loop of `Line::search_pattern` (`src/book.rs` lines
331-342), carried by the current character position `start`.  The source
keeps `slice`, the tail of the text from `byte_index_for_char(text, chars,
start)` — which is precisely the UTF-8 encoding of `text.drop start`, so
the loop re-derives the slice from `start`.  Loop body, in source order:
find the next match in the slice; advance `start` to the match end; call
the callback and propagate its error with `?`; recompute the slice,
breaking when `start` is out of the text. -/
def searchLoop (regex : Regex) (text : List Char) (chars : Nat)
    (f : List Char → Nat × Nat → Except SearchError Unit) (start : Nat) :
    Except SearchError Unit :=
  match hfp : find_pattern (text.drop start) chars regex start false with
  | none => .ok ()
  | some range =>
    match f text range with
    | .error e => .error e
    | .ok _ =>
      match byte_index_for_char text chars range.2 with
      | some _ => searchLoop regex text chars f range.2
      | none => .ok ()
termination_by text.length + 1 - start
decreasing_by
  have := find_pattern_progress hfp
  omega

/-- `Line::search_pattern` (`src/book.rs` lines 326-344): scan the whole
line, invoking the callback on every match in order, propagating the first
callback error. -/
def Line.search_pattern (l : Line) (regex : Regex)
    (f : List Char → Nat × Nat → Except SearchError Unit) :
    Except SearchError Unit :=
  searchLoop regex l.chars l.chars.length f 0

/-- The sequence of matches the `Line::search_pattern` loop visits,
obtained by the identical traversal with no callback. -/
def matchesLoop (regex : Regex) (text : List Char) (chars start : Nat) :
    List (Nat × Nat) :=
  match hfp : find_pattern (text.drop start) chars regex start false with
  | none => []
  | some range =>
    range ::
      match byte_index_for_char text chars range.2 with
      | some _ => matchesLoop regex text chars range.2
      | none => []
termination_by text.length + 1 - start
decreasing_by
  have := find_pattern_progress hfp
  omega

/-- All matches `Line::search_pattern` visits on a line, in order. -/
def searchMatches (regex : Regex) (l : Line) : List (Nat × Nat) :=
  matchesLoop regex l.chars l.chars.length 0

/-- Folding a callback over a match list, stopping at the first error:
the reference behavior `Line::search_pattern` is proved equal to. -/
def firstError (f : List Char → Nat × Nat → Except SearchError Unit)
    (text : List Char) : List (Nat × Nat) → Except SearchError Unit
  | [] => .ok ()
  | r :: rest =>
    match f text r with
    | .error e => .error e
    | .ok _ => firstError f text rest

/-- Length of the run of copies of `c` at the head of a character list. -/
def runLen (c : Char) : List Char → Nat
  | [] => 0
  | x :: t => if x = c then runLen c t + 1 else 0

theorem runLen_le_length (c : Char) (s : List Char) : runLen c s ≤ s.length := by
  induction s with
  | nil => simp [runLen]
  | cons x t ih =>
    simp only [runLen, List.length_cons]
    split
    · omega
    · omega

/-- Leftmost maximal run of `c` in a character list, as a half-open range
of character offsets; `i` is the offset of the list's head. -/
def findRunAux (c : Char) : List Char → Nat → Option (Nat × Nat)
  | [], _ => none
  | x :: t, i =>
    if x = c then some (i, i + 1 + runLen c t)
    else findRunAux c t (i + 1)

theorem findRunAux_some (c : Char) (s : List Char) (i : Nat) {a b : Nat}
    (h : findRunAux c s i = some (a, b)) : i ≤ a ∧ a < b ∧ b ≤ i + s.length := by
  induction s generalizing i with
  | nil => simp [findRunAux] at h
  | cons x t ih =>
    simp only [findRunAux] at h
    split at h
    · have hr := runLen_le_length c t
      simp only [Option.some.injEq, Prod.mk.injEq] at h
      obtain ⟨ha, hb⟩ := h
      subst ha
      subst hb
      simp only [List.length_cons]
      omega
    · have := ih (i + 1) h
      simp only [List.length_cons]
      omega

/-- Every maximal run of `c`, left to right, as half-open character-offset
ranges: the scan carries the start offset of the currently open run. -/
def runsGo (c : Char) : List Char → Nat → Option Nat → List (Nat × Nat)
  | [], _, none => []
  | [], i, some st => [(st, i)]
  | x :: t, i, none =>
    if x = c then runsGo c t (i + 1) (some i) else runsGo c t (i + 1) none
  | x :: t, i, some st =>
    if x = c then runsGo c t (i + 1) (some st)
    else (st, i) :: runsGo c t (i + 1) none

/-- Modelled from the spec: the first match `fancy_regex` reports for a
single-character one-or-more pattern (the spec's example pattern `a+`) is
the leftmost maximal run of that character, reported as a byte range into
the UTF-8 encoding of the text. -/
def plusFindFirst (c : Char) (s : List Char) : Option (Nat × Nat) :=
  (findRunAux c s 0).map (fun r => (utf8Len (s.take r.1), utf8Len (s.take r.2)))

/-- Modelled from the spec: `fancy_regex::Regex::find_iter` for a
single-character one-or-more pattern enumerates every maximal run, left to
right, as byte ranges. -/
def plusFindIter (c : Char) (s : List Char) : List (Nat × Nat) :=
  (runsGo c s 0 none).map (fun r => (utf8Len (s.take r.1), utf8Len (s.take r.2)))

/-- The pattern `c+` as a `Regex` value of the engine interface. -/
def plusRegex (c : Char) : Regex where
  findFirst := plusFindFirst c
  findIter := plusFindIter c
  progress := by
    intro s r h
    unfold plusFindFirst at h
    cases hf : findRunAux c s 0 with
    | none => rw [hf] at h; simp at h
    | some p =>
      rw [hf] at h
      simp only [Option.map_some', Option.some.injEq] at h
      obtain ⟨a, b⟩ := p
      have := findRunAux_some c s 0 hf
      rw [← h]
      exact utf8Len_take_lt s this.2.1 (by omega)
  bounded := by
    intro s r h
    unfold plusFindFirst at h
    cases hf : findRunAux c s 0 with
    | none => rw [hf] at h; simp at h
    | some p =>
      rw [hf] at h
      simp only [Option.map_some', Option.some.injEq] at h
      rw [← h]
      exact utf8Len_take_le s p.2

theorem searchLoop_none {regex : Regex} {text : List Char} {chars start : Nat}
    {f : List Char → Nat × Nat → Except SearchError Unit}
    (h : find_pattern (text.drop start) chars regex start false = none) :
    searchLoop regex text chars f start = .ok () := by
  rw [searchLoop.eq_def]
  split
  · rfl
  · simp_all

theorem searchLoop_some {regex : Regex} {text : List Char} {chars start : Nat}
    {f : List Char → Nat × Nat → Except SearchError Unit} {range : Nat × Nat}
    (h : find_pattern (text.drop start) chars regex start false = some range) :
    searchLoop regex text chars f start =
      match f text range with
      | .error e => .error e
      | .ok _ =>
        match byte_index_for_char text chars range.2 with
        | some _ => searchLoop regex text chars f range.2
        | none => .ok () := by
  rw [searchLoop.eq_def]
  split
  · simp_all
  · rename_i r hr
    rw [h] at hr
    cases hr
    rfl

theorem matchesLoop_none {regex : Regex} {text : List Char} {chars start : Nat}
    (h : find_pattern (text.drop start) chars regex start false = none) :
    matchesLoop regex text chars start = [] := by
  rw [matchesLoop.eq_def]
  split
  · rfl
  · simp_all

theorem matchesLoop_some {regex : Regex} {text : List Char} {chars start : Nat}
    {range : Nat × Nat}
    (h : find_pattern (text.drop start) chars regex start false = some range) :
    matchesLoop regex text chars start =
      range ::
        match byte_index_for_char text chars range.2 with
        | some _ => matchesLoop regex text chars range.2
        | none => [] := by
  rw [matchesLoop.eq_def]
  split
  · simp_all
  · rename_i r hr
    rw [h] at hr
    cases hr
    rfl

theorem searchLoop_eq_firstError (regex : Regex) (text : List Char) (chars : Nat)
    (f : List Char → Nat × Nat → Except SearchError Unit) :
    ∀ n start, text.length + 1 - start ≤ n →
      searchLoop regex text chars f start =
        firstError f text (matchesLoop regex text chars start) := by
  intro n
  induction n with
  | zero =>
    intro start hle
    have hnone : find_pattern (text.drop start) chars regex start false = none := by
      cases hfp : find_pattern (text.drop start) chars regex start false with
      | none => rfl
      | some r =>
        have := find_pattern_progress hfp
        omega
    rw [searchLoop_none hnone, matchesLoop_none hnone]
    rfl
  | succ n ih =>
    intro start hle
    cases hfp : find_pattern (text.drop start) chars regex start false with
    | none =>
      rw [searchLoop_none hfp, matchesLoop_none hfp]
      rfl
    | some range =>
      rw [searchLoop_some hfp, matchesLoop_some hfp]
      cases hf : f text range with
      | error e => simp [firstError, hf]
      | ok u =>
        cases u
        cases hb : byte_index_for_char text chars range.2 with
        | none => simp [firstError, hf, hb]
        | some b =>
          simp only [firstError, hf, hb]
          have hprog := find_pattern_progress hfp
          exact ih range.2 (by omega)

theorem foldl_append_chars (s : List Char) :
    ∀ acc : List Char, s.foldl (fun chars ch => chars ++ [ch]) acc = acc ++ s := by
  induction s with
  | nil => intro acc; simp
  | cons x t ih => intro acc; simp [List.foldl_cons, ih]

/-- The demonstration book of the spec's loader example: three one-character
lines, current chapter 0. -/
def demoBook : ParsedBook :=
  { lines := [Line.new "a".data, Line.new "b".data, Line.new "c".data],
    current_chapter := 0 }

/-- The demonstration parser result of the spec's loader example:
`reading.line = 999` for the three-line `demoBook`, with an out-of-bounds
position as well. -/
def demoReading : ReadingInfo :=
  { row_id := 0, filename := "demo.txt", inner_book := 0, chapter := 7,
    line := 999, position := 9, custom_color := true,
    strip_empty_lines := false }

/-- A handler registered for `.txt` whose parse step returns
`(demoBook, demoReading)` for any content. -/
def demoLoader : Loader :=
  { extensions := [".txt"], load_buf := fun _ => .ok (demoBook, demoReading) }

/-! ## Claims -/

/-- C1: the claim reads "a == b holds if and only if their character
sequences are equal".  This is FALSE of the code: `PartialEq for Line`
creates both iterators from `self.chars`, so after the length check it
compares `self` with itself and `eq` degenerates to a length comparison.
The two two-character lines "ab" and "cd" compare equal while their
character sequences differ — evaluated here at that failing input. -/
theorem line_eq_compares_only_length :
    Line.eq (Line.new "ab".data) (Line.new "cd".data) = true ∧
    (Line.new "ab".data).chars ≠ (Line.new "cd".data).chars := by
  decide

/-- C2: the claim reads "TEXT_SELECTION_SPLITTER is sorted in ascending
character order, so that binary search over it is a valid membership test
for every character".  This is FALSE of the code (and contradicts the
source's own comment "this array is sorted, modify carefully"): `'\t'`
(U+0009) sits at index 19, after `'\\'` (U+005C) at index 18, so the array
is unsorted and Rust's `binary_search` misses the two members `'\t'` and
`'\\'`. -/
theorem splitter_unsorted_breaks_binary_search :
    ¬ List.Sorted (· < ·) TEXT_SELECTION_SPLITTER.toList ∧
    TEXT_SELECTION_SPLITTER.getD 18 default = '\\' ∧
    TEXT_SELECTION_SPLITTER.getD 19 default = '\t' ∧
    '\t' < '\\' ∧
    ('\t' ∈ TEXT_SELECTION_SPLITTER.toList ∧ isSplitter '\t' = false) ∧
    ('\\' ∈ TEXT_SELECTION_SPLITTER.toList ∧ isSplitter '\\' = false) := by
  decide

/-- C3: the three `"hello, world"` examples hold as claimed ((0,4), (5,5)
and (7,11)), but the claim's general reading — the character at the offset
being a splitter yields the single-character range — is FALSE of the code:
`'\t'` belongs to `TEXT_SELECTION_SPLITTER`, yet on the line `"x\ty"` at
offset 1 the code returns (0, 2) instead of (1, 1), because the broken
binary search over the unsorted array does not find `'\t'`. -/
theorem word_at_offset_examples_and_tab_breakage :
    (Line.new "hello, world".data).word_at_offset 0 = some (0, 4) ∧
    (Line.new "hello, world".data).word_at_offset 5 = some (5, 5) ∧
    (Line.new "hello, world".data).word_at_offset 7 = some (7, 11) ∧
    '\t' ∈ TEXT_SELECTION_SPLITTER.toList ∧
    (Line.new "x\ty".data).word_at_offset 1 = some (0, 2) := by
  decide

/-- C4: when the matched handler succeeds and its book has at least one
line, `BookLoader::load` returns the same book with a reading whose
chapter is the book's `current_chapter()`, whose line is clamped to
`lines.len() - 1` exactly when the parser's line was out of bounds, and
whose position is reset to 0 exactly when it was out of bounds for the
(clamped) line. -/
theorem load_clamps_reading (loaders : List Loader) (filename : String)
    (content : List UInt8) (loader : Loader) (book : ParsedBook)
    (reading0 : ReadingInfo)
    (hfind : loaders.find? (fun l => l.support filename) = some loader)
    (hparse : loader.load_buf content = .ok (book, reading0))
    (hlines : 0 < book.lines.length) :
    ∃ r : ReadingInfo,
      BookLoader.load loaders filename content = some (.ok (book, r)) ∧
      r.chapter = book.current_chapter ∧
      (book.lines.length ≤ reading0.line → r.line = book.lines.length - 1) ∧
      (reading0.line < book.lines.length → r.line = reading0.line) ∧
      ((book.lines.getD r.line default).len ≤ reading0.position → r.position = 0) ∧
      (reading0.position < (book.lines.getD r.line default).len → r.position = reading0.position) := by
  have hpost : load_post book reading0 = some { reading0 with
      chapter := book.current_chapter,
      line := if book.lines.length ≤ reading0.line then book.lines.length - 1
              else reading0.line,
      position := if (book.lines.getD
            (if book.lines.length ≤ reading0.line then book.lines.length - 1
             else reading0.line) default).len ≤ reading0.position then 0
          else reading0.position } := by
    unfold load_post
    rw [if_neg (by omega)]
  refine ⟨{ reading0 with
      chapter := book.current_chapter,
      line := if book.lines.length ≤ reading0.line then book.lines.length - 1
              else reading0.line,
      position := if (book.lines.getD
            (if book.lines.length ≤ reading0.line then book.lines.length - 1
             else reading0.line) default).len ≤ reading0.position then 0
          else reading0.position }, ?_, rfl, ?_, ?_, ?_, ?_⟩
  · simp only [BookLoader.load, hfind, hparse, hpost]
  · intro h
    exact if_pos h
  · intro h
    exact if_neg (by omega)
  · intro h
    exact if_pos h
  · intro h
    have h2 : reading0.position < (book.lines.getD
        (if book.lines.length ≤ reading0.line then book.lines.length - 1
         else reading0.line) default).len := h
    exact if_neg (by omega)

/-- Witness for C4, at the spec's own example: a `.txt` handler returning
a three-line book with `reading.line = 999` is clamped to line 2, and the
out-of-bounds position 9 is reset to 0. -/
theorem load_clamps_reading_witness :
    ∃ r : ReadingInfo,
      BookLoader.load [demoLoader] "demo.txt" [] = some (.ok (demoBook, r)) ∧
      r.chapter = demoBook.current_chapter ∧ r.line = 2 ∧ r.position = 0 := by
  obtain ⟨r, h1, h2, h3, _, h5, _⟩ :=
    load_clamps_reading [demoLoader] "demo.txt" [] demoLoader demoBook
      demoReading rfl rfl (by decide)
  have hline : r.line = 2 := h3 (by decide)
  refine ⟨r, h1, h2, hline, h5 ?_⟩
  rw [hline]
  decide

/-- C5: `range_highlight` over the lines "abc", "defg", "hi" from (0,1)
to (2,0) selects exactly "bc\ndefg\nh" (slices joined by single newlines),
and on an empty line collection it returns `none` for every pair of
endpoints. -/
theorem range_highlight_selected_text :
    (range_highlight [Line.new "abc".data, Line.new "defg".data, Line.new "hi".data]
        ⟨0, 1⟩ ⟨2, 0⟩).map HighlightInfo.text = some "bc\ndefg\nh".data ∧
    ∀ from_ to_ : Position, range_highlight [] from_ to_ = none := by
  constructor
  · decide
  · intro _ _
    rfl

/-- C6: with pattern `a+` over the line "aa bb aaa" (start and stop
unset), forward `search_pattern_once` returns the first run as the
half-open character range 0..2; reverse returns the right-most run
6..9. -/
theorem search_once_forward_reverse :
    (Line.new "aa bb aaa".data).search_pattern_once (plusRegex 'a') none none false
        = some (0, 2) ∧
    (Line.new "aa bb aaa".data).search_pattern_once (plusRegex 'a') none none true
        = some (6, 9) := by
  decide

/-- C7: `Line::search_pattern` equals folding the callback over the
sequence of matches and stopping at the first callback error: if the
callback fails (with `canceled` or `custom`, distinct constructors) on
some match, that same error is returned and no later match is visited; if
the callback always succeeds, the result is `Ok`. -/
theorem search_pattern_first_error (regex : Regex) (l : Line)
    (f : List Char → Nat × Nat → Except SearchError Unit) :
    l.search_pattern regex f = firstError f l.chars (searchMatches regex l) :=
  searchLoop_eq_firstError regex l.chars l.chars.length f
    (l.chars.length + 1) 0 (by omega)

/-- C8: with the `Book` trait's default implementations, `goto_chapter`
answers `Ok(None)` past the last chapter and `Ok(Some(index))` otherwise,
`prev_chapter` at chapter 0 answers `Ok(None)` without wrapping, and
`next_chapter`/`prev_chapter` (the latter away from 0) are exactly
`goto_chapter` at `current + 1` and `current - 1`. -/
theorem chapter_navigation_defaults (b : BookNav) :
    (∀ i, b.chapter_count ≤ i → goto_chapter b i = .ok none) ∧
    (∀ i, i < b.chapter_count → goto_chapter b i = .ok (some i)) ∧
    (b.current_chapter = 0 → prev_chapter b = .ok none) ∧
    (0 < b.current_chapter → prev_chapter b = goto_chapter b (b.current_chapter - 1)) ∧
    next_chapter b = goto_chapter b (b.current_chapter + 1) := by
  refine ⟨?_, ?_, ?_, ?_, rfl⟩
  · intro i h
    unfold goto_chapter
    rw [if_pos h]
  · intro i h
    unfold goto_chapter
    rw [if_neg (by omega)]
  · intro h
    unfold prev_chapter
    rw [if_pos h]
  · intro h
    unfold prev_chapter
    rw [if_neg (by omega)]

/-- Witness for C8 on a three-chapter book at chapters 0 and 1. -/
theorem chapter_navigation_defaults_witness :
    goto_chapter ⟨3, 0⟩ 3 = .ok none ∧
    goto_chapter ⟨3, 0⟩ 2 = .ok (some 2) ∧
    prev_chapter ⟨3, 0⟩ = .ok none ∧
    prev_chapter ⟨3, 1⟩ = goto_chapter ⟨3, 1⟩ 0 ∧
    next_chapter ⟨3, 1⟩ = goto_chapter ⟨3, 1⟩ 2 :=
  ⟨(chapter_navigation_defaults ⟨3, 0⟩).1 3 (by decide),
   (chapter_navigation_defaults ⟨3, 0⟩).2.1 2 (by decide),
   (chapter_navigation_defaults ⟨3, 0⟩).2.2.1 rfl,
   (chapter_navigation_defaults ⟨3, 1⟩).2.2.2.1 (by decide),
   (chapter_navigation_defaults ⟨3, 1⟩).2.2.2.2⟩

/-- C9: `Line::new(s)` keeps every scalar value of `s` — NUL included, so
its length is the scalar count of `s` — while `Line::push('\0')` discards
the NUL and leaves the character sequence unchanged. -/
theorem new_keeps_nul_push_drops_nul :
    (∀ s : List Char, (Line.new s).len = s.length) ∧
    (∀ l : Line, (l.push '\x00').chars = l.chars) := by
  constructor
  · intro s
    unfold Line.new Line.with_chars Line.len
    simp [foldl_append_chars]
  · intro l
    unfold Line.push
    rw [if_pos rfl]

/-- C10: the post-processing step of `BookLoader::load` is total exactly
on books with at least one line: its panic branch (modelled as `none`) is
taken precisely when the parsed book's line collection is empty, where the
source underflows `lines.len() - 1` and indexes out of bounds instead of
returning an `Err`. -/
theorem load_post_none_iff (book : ParsedBook) (reading : ReadingInfo) :
    load_post book reading = none ↔ book.lines = [] := by
  unfold load_post
  by_cases h : book.lines.length = 0
  · rw [if_pos h]
    simp [List.length_eq_zero.mp h]
  · rw [if_neg h]
    constructor
    · intro hc
      exact absurd hc (by simp)
    · intro hc
      rw [hc] at h
      simp at h

end Ter
